import Mathlib

/-!
Verification of the Breakout fixed-step simulation core (breakout4k.py).

The embedding models pygame rectangles as integer axis-aligned boxes
(pygame.Rect stores integer x, y, w, h), velocities as exact rationals
(the Python floats, modelled exactly), and the per-tick simulation body
(source lines 216-284) as a pure state-to-state function.  The two
places where the source computes a velocity from trigonometry on floats
(the randomized launch in reset_ball_paddle, lines 83-91, and the paddle
bounce, lines 252-257) are modelled by passing the computed velocity
into the step as an explicit parameter (lv for the launch, pb for the
paddle bounce); the real-valued formulas themselves are verified in
dedicated theorems over the reals.
-/

namespace Breakout

/-- Window and game constants from the source (lines 12-30). -/
def WIN_W : ℤ := 800

def WIN_H : ℤ := 600

def DT : ℚ := 1 / 60

def PADDLE_W : ℤ := 100

def PADDLE_H : ℤ := 14

def PADDLE_Y : ℤ := 560

def BALL_SIZE : ℤ := 10

/-- BALL_SPEED = 320.0 (line 20), as a real number for the launch and
bounce formulas. -/
def BALL_SPEED : ℝ := 320

def BRICK_COLS : ℕ := 10

def BRICK_ROWS : ℕ := 6

def BRICK_W : ℤ := 70

def BRICK_H : ℤ := 22

def BRICK_TOP : ℤ := 80

def BRICK_LEFT : ℤ := 65

def BRICK_GAP : ℤ := 6

def START_LIVES : ℤ := 3

/-- A pygame.Rect: integer position and size.  left = x, right = x + w,
top = y, bottom = y + h. -/
structure Rect where
  x : ℤ
  y : ℤ
  w : ℤ
  h : ℤ
  deriving DecidableEq, Repr

/-- pygame Rect.colliderect: the boxes overlap with strict inequalities
(touching edges do not collide). -/
def colliderect (a b : Rect) : Bool :=
  decide (max a.x b.x < min (a.x + a.w) (b.x + b.w)) &&
  decide (max a.y b.y < min (a.y + a.h) (b.y + b.h))

/-- Python int() applied to a rational: truncation toward zero
(used in ball.x += int(vel[0] * DT), lines 219-220). -/
def pytrunc (q : ℚ) : ℤ :=
  if q < 0 then -(Int.floor (-q)) else Int.floor q

/-- brick_rect (lines 73-76): the screen rectangle of the brick in row r,
column c. -/
def brick_rect (r c : ℕ) : Rect :=
  { x := BRICK_LEFT + (c : ℤ) * (BRICK_W + BRICK_GAP)
    y := BRICK_TOP + (r : ℤ) * (BRICK_H + BRICK_GAP)
    w := BRICK_W
    h := BRICK_H }

/-- reset_bricks (lines 79-80): all bricks alive. -/
def reset_bricks : List (List Bool) :=
  List.replicate BRICK_ROWS (List.replicate BRICK_COLS true)

/-- The paddle produced by reset_ball_paddle (line 84). -/
def reset_paddle : Rect :=
  { x := (WIN_W - PADDLE_W) / 2, y := PADDLE_Y, w := PADDLE_W, h := PADDLE_H }

/-- The ball produced by reset_ball_paddle (lines 85-86). -/
def reset_ball : Rect :=
  { x := WIN_W / 2 - BALL_SIZE / 2, y := WIN_H / 2 + 60
    w := BALL_SIZE, h := BALL_SIZE }

/-- Reading bricks[r][c] (alive test, line 268). -/
def getBrick (bricks : List (List Bool)) (r c : ℕ) : Bool :=
  (bricks.getD r []).getD c false

/-- Writing bricks[r][c] = 0 (line 273). -/
def setDead (bricks : List (List Bool)) (r c : ℕ) : List (List Bool) :=
  bricks.set r ((bricks.getD r []).set c false)

/-- all_bricks_cleared (lines 94-99). -/
def all_bricks_cleared (bricks : List (List Bool)) : Bool :=
  bricks.all (fun row => row.all (fun b => !b))

/-- Number of alive bricks in the grid. -/
def aliveCount (bricks : List (List Bool)) : ℕ :=
  (bricks.map (fun row => row.count true)).sum

/-- Number of dead bricks in the grid. -/
def deadCount (bricks : List (List Bool)) : ℕ :=
  (bricks.map (fun row => row.count false)).sum

/-- The row-major scan order of the nested brick loops
(lines 264-267): row 0..5, and within each row column 0..9. -/
def rowMajor : List (ℕ × ℕ) :=
  (List.range BRICK_ROWS).flatMap (fun r => (List.range BRICK_COLS).map (fun c => (r, c)))

/-- The first alive brick, in row-major order, whose rectangle collides
with the ball; the nested loops with the hit_brick flag and the two
break statements (lines 262-283) resolve exactly this brick. -/
def firstHit (bricks : List (List Bool)) (ball : Rect) : Option (ℕ × ℕ) :=
  rowMajor.find? (fun rc => getBrick bricks rc.1 rc.2 && colliderect ball (brick_rect rc.1 rc.2))

/-- Strict row-major precedence on grid cells. -/
def before (p q : ℕ × ℕ) : Prop :=
  p.1 < q.1 ∨ (p.1 = q.1 ∧ p.2 < q.2)

instance (p q : ℕ × ℕ) : Decidable (before p q) := by
  unfold before; infer_instance

/-- reflect_from_brick (lines 106-138), translated literally: compute the
four penetrations, pick the smallest by the if chain (strict comparisons,
so the earliest minimum in the order left, right, top, bottom wins),
then flip the matching velocity component and push the ball one unit
past the brick edge. -/
def reflect_from_brick (ball rb : Rect) (vel : ℚ × ℚ) : Rect × (ℚ × ℚ) :=
  let left_pen := rb.x + rb.w - ball.x
  let right_pen := ball.x + ball.w - rb.x
  let top_pen := rb.y + rb.h - ball.y
  let bot_pen := ball.y + ball.h - rb.y
  let m1 := left_pen
  let n1 : ℤ × ℤ := (1, 0)
  let mn2 := if right_pen < m1 then (right_pen, ((-1 : ℤ), (0 : ℤ))) else (m1, n1)
  let mn3 := if top_pen < mn2.1 then (top_pen, ((0 : ℤ), (1 : ℤ))) else mn2
  let mn4 := if bot_pen < mn3.1 then (bot_pen, ((0 : ℤ), (-1 : ℤ))) else mn3
  let n := mn4.2
  let bv1 : Rect × (ℚ × ℚ) :=
    if n.1 ≠ 0 then
      (if n.1 > 0 then { ball with x := rb.x + rb.w + 1 }
       else { ball with x := rb.x - 1 - ball.w }, (-vel.1, vel.2))
    else (ball, vel)
  if n.2 ≠ 0 then
    (if n.2 > 0 then { bv1.1 with y := rb.y + rb.h + 1 }
     else { bv1.1 with y := rb.y - 1 - bv1.1.h }, (bv1.2.1, -bv1.2.2))
  else bv1

/-- The four sides a brick collision can resolve against. -/
inductive Side where
  | left
  | right
  | top
  | bottom
  deriving DecidableEq, Repr

/-- Modelled from the claim wording: the penetration depth of each side. -/
def sidePen (ball rb : Rect) : Side → ℤ
  | Side.left => rb.x + rb.w - ball.x
  | Side.right => ball.x + ball.w - rb.x
  | Side.top => rb.y + rb.h - ball.y
  | Side.bottom => ball.y + ball.h - rb.y

/-- Modelled from the claim wording: the side with minimum penetration,
ties resolved by the fixed order left, right, top, bottom (first
minimum wins). -/
def spec_side (ball rb : Rect) : Side :=
  let m := min (sidePen ball rb Side.left) (min (sidePen ball rb Side.right)
    (min (sidePen ball rb Side.top) (sidePen ball rb Side.bottom)))
  if sidePen ball rb Side.left = m then Side.left
  else if sidePen ball rb Side.right = m then Side.right
  else if sidePen ball rb Side.top = m then Side.top
  else Side.bottom

/-- Modelled from the claim wording: reflect the velocity component
orthogonal to the chosen side and place the ball one unit beyond the
brick edge along that axis. -/
def spec_apply (s : Side) (ball rb : Rect) (vel : ℚ × ℚ) : Rect × (ℚ × ℚ) :=
  match s with
  | Side.left => ({ ball with x := rb.x + rb.w + 1 }, (-vel.1, vel.2))
  | Side.right => ({ ball with x := rb.x - 1 - ball.w }, (-vel.1, vel.2))
  | Side.top => ({ ball with y := rb.y + rb.h + 1 }, (vel.1, -vel.2))
  | Side.bottom => ({ ball with y := rb.y - 1 - ball.h }, (vel.1, -vel.2))

/-- Modelled from the claim wording: the whole brick response. -/
def spec_reflect (ball rb : Rect) (vel : ℚ × ℚ) : Rect × (ℚ × ℚ) :=
  spec_apply (spec_side ball rb) ball rb vel

/-- The mutable state of one round (lines 163-169).  The paused flag and
the game_over and is_win flags are the source variables of the same
names; Lost is game_over with is_win false, Won is game_over with
is_win true. -/
structure GState where
  bricks : List (List Bool)
  paddle : Rect
  ball : Rect
  vel : ℚ × ℚ
  lives : ℤ
  score : ℤ
  paused : Bool
  game_over : Bool
  is_win : Bool
  deriving DecidableEq, Repr

/-- Full reset (lines 163-169 and the K_r handler, lines 193-200): all
bricks alive, paddle and ball at the round-start layout, the launch
velocity lv computed by reset_ball_paddle, START_LIVES lives, score 0,
all flags cleared. -/
def reset (lv : ℚ × ℚ) : GState :=
  { bricks := reset_bricks
    paddle := reset_paddle
    ball := reset_ball
    vel := lv
    lives := START_LIVES
    score := 0
    paused := false
    game_over := false
    is_win := false }

/-- Ball integration (lines 219-220): position advances by the truncated
pixel displacement of each velocity component. -/
def movePhase (s : GState) : GState :=
  { s with ball :=
      { s.ball with
        x := s.ball.x + pytrunc (s.vel.1 * DT)
        y := s.ball.y + pytrunc (s.vel.2 * DT) } }

/-- Wall collision (lines 222-237): left and right are an if/elif on the
horizontal axis, top a separate if; each clamps the box to the window
and sets the velocity component to the absolute value pointing away
from the wall.  The bottom edge is not handled here. -/
def wallsPhase (s : GState) : GState :=
  let ball := s.ball
  let bv :=
    if ball.x ≤ 0 then ({ ball with x := 0 }, (|s.vel.1|, s.vel.2))
    else if ball.x + ball.w ≥ WIN_W then
      ({ ball with x := WIN_W - ball.w }, (-|s.vel.1|, s.vel.2))
    else (ball, s.vel)
  let bv2 :=
    if bv.1.y ≤ 0 then ({ bv.1 with y := 0 }, (bv.2.1, |bv.2.2|)) else bv
  { s with ball := bv2.1, vel := bv2.2 }

/-- Bottom boundary, life loss (lines 240-248): when the ball top is
below the window, decrement lives; at zero or fewer the game is lost,
otherwise ball and paddle respawn at the round-start layout with the
freshly computed launch velocity lv. -/
def bottomPhase (lv : ℚ × ℚ) (s : GState) : GState :=
  if s.ball.y > WIN_H then
    if s.lives - 1 ≤ 0 then
      { s with lives := s.lives - 1, game_over := true, is_win := false }
    else
      { s with lives := s.lives - 1, paddle := reset_paddle, ball := reset_ball, vel := lv }
  else s

/-- Paddle collision (lines 251-260): fires only on box overlap with the
ball moving downward; the new velocity is the float-computed bounce pb,
and the ball bottom is placed one unit above the paddle top. -/
def paddlePhase (pb : ℚ × ℚ) (s : GState) : GState :=
  if colliderect s.ball s.paddle = true ∧ 0 < s.vel.2 then
    { s with vel := pb, ball := { s.ball with y := s.paddle.y - 1 - s.ball.h } }
  else s

/-- Brick collision (lines 262-283): resolve the first alive brick hit in
row-major order, if any; reflect, kill it, add 10 to the score, and if
the grid is now clear the game is won. -/
def brickPhase (s : GState) : GState :=
  match firstHit s.bricks s.ball with
  | none => s
  | some rc =>
    let bv := reflect_from_brick s.ball (brick_rect rc.1 rc.2) s.vel
    let bricks := setDead s.bricks rc.1 rc.2
    if all_bricks_cleared bricks = true then
      { s with ball := bv.1, vel := bv.2, bricks := bricks,
               score := s.score + 10, game_over := true, is_win := true }
    else
      { s with ball := bv.1, vel := bv.2, bricks := bricks, score := s.score + 10 }

/-- One fixed-step body (lines 216-284), written as the single linear
sequence of the source: move the ball, walls, bottom, paddle, bricks. -/
def stepBody (lv pb : ℚ × ℚ) (s0 : GState) : GState :=
  let s1 : GState :=
    { s0 with ball :=
        { s0.ball with
          x := s0.ball.x + pytrunc (s0.vel.1 * DT)
          y := s0.ball.y + pytrunc (s0.vel.2 * DT) } }
  let s2 : GState :=
    let ball := s1.ball
    let bv :=
      if ball.x ≤ 0 then ({ ball with x := 0 }, (|s1.vel.1|, s1.vel.2))
      else if ball.x + ball.w ≥ WIN_W then
        ({ ball with x := WIN_W - ball.w }, (-|s1.vel.1|, s1.vel.2))
      else (ball, s1.vel)
    let bv2 :=
      if bv.1.y ≤ 0 then ({ bv.1 with y := 0 }, (bv.2.1, |bv.2.2|)) else bv
    { s1 with ball := bv2.1, vel := bv2.2 }
  let s3 : GState :=
    if s2.ball.y > WIN_H then
      if s2.lives - 1 ≤ 0 then
        { s2 with lives := s2.lives - 1, game_over := true, is_win := false }
      else
        { s2 with lives := s2.lives - 1, paddle := reset_paddle, ball := reset_ball, vel := lv }
    else s2
  let s4 : GState :=
    if colliderect s3.ball s3.paddle = true ∧ 0 < s3.vel.2 then
      { s3 with vel := pb, ball := { s3.ball with y := s3.paddle.y - 1 - s3.ball.h } }
    else s3
  match firstHit s4.bricks s4.ball with
  | none => s4
  | some rc =>
    let bv := reflect_from_brick s4.ball (brick_rect rc.1 rc.2) s4.vel
    let bricks := setDead s4.bricks rc.1 rc.2
    if all_bricks_cleared bricks = true then
      { s4 with ball := bv.1, vel := bv.2, bricks := bricks,
                score := s4.score + 10, game_over := true, is_win := true }
    else
      { s4 with ball := bv.1, vel := bv.2, bricks := bricks, score := s4.score + 10 }

/-- One drained accumulator increment (lines 216-217): the body runs only
when neither paused nor game over. -/
def tick (lv pb : ℚ × ℚ) (s : GState) : GState :=
  if s.paused || s.game_over then s else stepBody lv pb s

section MainProofs

attribute [local semireducible] Rat.mul Rat.inv Rat.add Rat.sub Rat.ofScientific

set_option maxHeartbeats 2000000 in
/-- The linear step body is exactly the five phases composed in source
order: integration, walls, bottom boundary, paddle, bricks. -/
theorem stepBody_eq_phases (lv pb : ℚ × ℚ) (s : GState) :
    stepBody lv pb s = brickPhase (paddlePhase pb (bottomPhase lv (wallsPhase (movePhase s)))) := rfl

set_option maxHeartbeats 1600000 in
/-- The if chain of reflect_from_brick computes exactly the
first-minimum-wins side selection and response described by the spec. -/
theorem reflect_eq_spec_reflect (ball rb : Rect) (vel : ℚ × ℚ) :
    reflect_from_brick ball rb vel = spec_reflect ball rb vel := by
  unfold reflect_from_brick spec_reflect spec_side spec_apply sidePen
  dsimp only
  by_cases h1 : ball.x + ball.w - rb.x < rb.x + rb.w - ball.x
  · rw [if_pos h1]; dsimp only
    by_cases h2 : rb.y + rb.h - ball.y < ball.x + ball.w - rb.x
    · rw [if_pos h2]; dsimp only
      by_cases h3 : ball.y + ball.h - rb.y < rb.y + rb.h - ball.y
      · rw [if_pos h3]; dsimp only
        split_ifs <;> first | rfl | omega
      · rw [if_neg h3]; dsimp only
        split_ifs <;> first | rfl | omega
    · rw [if_neg h2]; dsimp only
      by_cases h3 : ball.y + ball.h - rb.y < ball.x + ball.w - rb.x
      · rw [if_pos h3]; dsimp only
        split_ifs <;> first | rfl | omega
      · rw [if_neg h3]; dsimp only
        split_ifs <;> first | rfl | omega
  · rw [if_neg h1]; dsimp only
    by_cases h2 : rb.y + rb.h - ball.y < rb.x + rb.w - ball.x
    · rw [if_pos h2]; dsimp only
      by_cases h3 : ball.y + ball.h - rb.y < rb.y + rb.h - ball.y
      · rw [if_pos h3]; dsimp only
        split_ifs <;> first | rfl | omega
      · rw [if_neg h3]; dsimp only
        split_ifs <;> first | rfl | omega
    · rw [if_neg h2]; dsimp only
      by_cases h3 : ball.y + ball.h - rb.y < rb.x + rb.w - ball.x
      · rw [if_pos h3]; dsimp only
        split_ifs <;> first | rfl | omega
      · rw [if_neg h3]; dsimp only
        split_ifs <;> first | rfl | omega

/-- C1: when the ball intersects a brick rectangle, the response of
reflect_from_brick selects the side of minimum penetration with ties
broken by the fixed order left, right, top, bottom (first minimum wins,
the definition spec_side), negates the velocity component orthogonal to
that side, and repositions the ball exactly one unit beyond the brick
edge along that axis (the definition spec_apply). -/
theorem c1_brick_reflect_min_side (ball rb : Rect) (vel : ℚ × ℚ)
    (hcol : colliderect ball rb = true) :
    reflect_from_brick ball rb vel =
      spec_apply (spec_side ball rb) ball rb vel :=
  reflect_eq_spec_reflect ball rb vel

set_option maxHeartbeats 1600000 in
/-- Witness for C1 at a concrete intersecting configuration. -/
theorem c1_brick_reflect_min_side_witness :
    colliderect { x := 100, y := 100, w := 10, h := 10 } (brick_rect 0 0) = true ∧
    reflect_from_brick { x := 100, y := 100, w := 10, h := 10 } (brick_rect 0 0) (3, 4) =
      spec_apply (spec_side { x := 100, y := 100, w := 10, h := 10 } (brick_rect 0 0))
        { x := 100, y := 100, w := 10, h := 10 } (brick_rect 0 0) (3, 4) :=
  ⟨by decide, c1_brick_reflect_min_side _ _ _ (by decide)⟩

/-- A state used to exhibit wall behaviour: the ball is about to cross
the right edge while already moving left. -/
def wallsCounterState : GState :=
  { bricks := reset_bricks, paddle := reset_paddle
    ball := { x := 795, y := 300, w := 10, h := 10 }, vel := (-60, 0)
    lives := 3, score := 0, paused := false, game_over := false, is_win := false }

/-- C4 counterexample: after integration the ball box crosses the right
window edge (right = 804 > 800), yet the horizontal velocity keeps its
value -60 instead of being negated to 60: the wall code assigns the
outward absolute value, it does not unconditionally invert the sign. -/
theorem c4_walls_counterexample :
    WIN_W < (movePhase wallsCounterState).ball.x + (movePhase wallsCounterState).ball.w ∧
    (wallsPhase (movePhase wallsCounterState)).vel.1 = -60 ∧
    (wallsPhase (movePhase wallsCounterState)).vel.1 ≠ -(wallsCounterState.vel.1) := by
  refine ⟨by decide, by decide, by decide⟩

/-- C4 amended: for each of the left, right and top edges, when the
integrated ball box reaches past the edge (the code also fires on exact
contact) the box is clamped back inside and the velocity component
orthogonal to the edge is set to the absolute value pointing away from
the wall (vx := abs vx at left, vx := -(abs vx) at right,
vy := abs vy at top); this inverts the sign precisely when the component
pointed toward the wall.  The bottom edge causes no bounce and no clamp. -/
theorem c4_walls_amended (s : GState) :
    (((movePhase s).ball.x ≤ 0 →
      (wallsPhase (movePhase s)).ball.x = 0 ∧
      (wallsPhase (movePhase s)).vel.1 = |s.vel.1| ∧
      (s.vel.1 < 0 → (wallsPhase (movePhase s)).vel.1 = -s.vel.1)) ∧
    (0 < (movePhase s).ball.x → WIN_W ≤ (movePhase s).ball.x + (movePhase s).ball.w →
      (wallsPhase (movePhase s)).ball.x = WIN_W - (movePhase s).ball.w ∧
      (wallsPhase (movePhase s)).vel.1 = -|s.vel.1| ∧
      (0 < s.vel.1 → (wallsPhase (movePhase s)).vel.1 = -s.vel.1)) ∧
    (0 < (movePhase s).ball.x → (movePhase s).ball.x + (movePhase s).ball.w < WIN_W →
      (wallsPhase (movePhase s)).ball.x = (movePhase s).ball.x ∧
      (wallsPhase (movePhase s)).vel.1 = s.vel.1)) ∧
    (((movePhase s).ball.y ≤ 0 →
      (wallsPhase (movePhase s)).ball.y = 0 ∧
      (wallsPhase (movePhase s)).vel.2 = |s.vel.2| ∧
      (s.vel.2 < 0 → (wallsPhase (movePhase s)).vel.2 = -s.vel.2)) ∧
    (0 < (movePhase s).ball.y →
      (wallsPhase (movePhase s)).ball.y = (movePhase s).ball.y ∧
      (wallsPhase (movePhase s)).vel.2 = s.vel.2)) := by
  unfold wallsPhase movePhase
  dsimp only
  split_ifs with h1 h2 h3 h4 h5 h6 <;>
    (try dsimp only at *) <;>
    refine ⟨⟨fun ha => ?_, fun ha hb => ?_, fun ha hb => ?_⟩,
      fun hc => ?_, fun hc => ?_⟩ <;>
    first
      | exact ⟨rfl, rfl, fun hv => by rw [abs_of_neg hv]⟩
      | exact ⟨rfl, rfl, fun hv => by rw [abs_of_pos hv]⟩
      | exact ⟨rfl, rfl⟩
      | omega

/-- A state used to exhibit the usual left-wall bounce: the ball crosses
the left edge while moving left. -/
def wallsLeftState : GState :=
  { bricks := reset_bricks, paddle := reset_paddle
    ball := { x := 0, y := 300, w := 10, h := 10 }, vel := (-60, 0)
    lives := 3, score := 0, paused := false, game_over := false, is_win := false }

/-- Witness for C4 amended: a ball crossing the left edge while moving
left has its horizontal velocity inverted and its box clamped to 0. -/
theorem c4_walls_amended_witness :
    (movePhase wallsLeftState).ball.x ≤ 0 ∧
    wallsLeftState.vel.1 < 0 ∧
    (wallsPhase (movePhase wallsLeftState)).ball.x = 0 ∧
    (wallsPhase (movePhase wallsLeftState)).vel.1 = -(wallsLeftState.vel.1) := by
  have h := (c4_walls_amended wallsLeftState).1.1 (by decide)
  exact ⟨by decide, by decide, h.1, h.2.2 (by decide)⟩

/-- A state with the ball near the floor: no wall fires, and the box
already sticks out below the window. -/
def lowBallState : GState :=
  { bricks := reset_bricks, paddle := reset_paddle
    ball := { x := 100, y := 595, w := 10, h := 10 }, vel := (0, 0)
    lives := 3, score := 0, paused := false, game_over := false, is_win := false }

/-- C6 counterexample: immediately after wall resolution the ball bottom
sits at 605 > 600, so the box is not fully inside the window: the wall
phase never clamps the bottom edge. -/
theorem c6_in_window_counterexample :
    (wallsPhase (movePhase lowBallState)).ball.y +
      (wallsPhase (movePhase lowBallState)).ball.h = 605 ∧
    ¬(0 ≤ (wallsPhase (movePhase lowBallState)).ball.x ∧
      (wallsPhase (movePhase lowBallState)).ball.x +
        (wallsPhase (movePhase lowBallState)).ball.w ≤ WIN_W ∧
      0 ≤ (wallsPhase (movePhase lowBallState)).ball.y ∧
      (wallsPhase (movePhase lowBallState)).ball.y +
        (wallsPhase (movePhase lowBallState)).ball.h ≤ WIN_H) := by
  refine ⟨by decide, by decide⟩

/-- C6 amended: immediately after wall resolution the ball box lies
within the window horizontally and below the top edge (0 ≤ left,
right ≤ 800, 0 ≤ top); the bottom is not clamped and may extend past
the window bottom, which the bottom-boundary phase then treats as a
life-loss event. -/
theorem c6_walls_in_window_amended (s : GState) (hw : s.ball.w ≤ WIN_W) :
    0 ≤ (wallsPhase (movePhase s)).ball.x ∧
    (wallsPhase (movePhase s)).ball.x + (wallsPhase (movePhase s)).ball.w ≤ WIN_W ∧
    0 ≤ (wallsPhase (movePhase s)).ball.y := by
  unfold wallsPhase movePhase at *
  dsimp only at *
  split_ifs <;> (try dsimp only at *) <;> omega

/-- Witness for C6 amended at the concrete low-ball state. -/
theorem c6_walls_in_window_amended_witness :
    lowBallState.ball.w ≤ WIN_W ∧
    (0 ≤ (wallsPhase (movePhase lowBallState)).ball.x ∧
      (wallsPhase (movePhase lowBallState)).ball.x +
        (wallsPhase (movePhase lowBallState)).ball.w ≤ WIN_W ∧
      0 ≤ (wallsPhase (movePhase lowBallState)).ball.y) :=
  ⟨by decide, c6_walls_in_window_amended lowBallState (by decide)⟩

theorem rowMajor_pairwise : rowMajor.Pairwise before := by decide

theorem mem_rowMajor {r c : ℕ} : (r, c) ∈ rowMajor ↔ r < BRICK_ROWS ∧ c < BRICK_COLS := by
  simp [rowMajor, List.mem_flatMap, List.mem_map, List.mem_range, Prod.ext_iff]

/-- find? on a row-major-sorted list only returns an element when the
predicate fails on every cell that precedes it in the scan order. -/
theorem find?_before_first {p : ℕ × ℕ → Bool} :
    ∀ {l : List (ℕ × ℕ)}, l.Pairwise before → ∀ {a : ℕ × ℕ}, l.find? p = some a →
      ∀ b ∈ l, before b a → p b = false := by
  intro l
  induction l with
  | nil => intro _ a ha; simp at ha
  | cons hd t ih =>
    intro hpw a hfind b hb hba
    rw [List.pairwise_cons] at hpw
    rcases List.mem_cons.mp hb with rfl | hbt
    · cases hph : p b with
      | false => rfl
      | true =>
        rw [List.find?_cons_of_pos _ hph] at hfind
        injection hfind with h1
        subst h1
        unfold before at hba
        omega
    · cases hph : p hd with
      | true =>
        rw [List.find?_cons_of_pos _ hph] at hfind
        injection hfind with h1
        subst h1
        have h2 := hpw.1 b hbt
        unfold before at hba h2
        omega
      | false =>
        rw [List.find?_cons_of_neg _ (by simp [hph])] at hfind
        exact ih hpw.2 hfind b hbt hba

theorem count_set_false : ∀ (l : List Bool) (c : ℕ), l.getD c false = true →
    (l.set c false).count true + 1 = l.count true := by
  intro l
  induction l with
  | nil => intro c hc; simp [List.getD] at hc
  | cons b t ih =>
    intro c hc
    cases c with
    | zero =>
      simp only [List.getD_cons_zero] at hc
      subst hc
      simp [List.set, List.count_cons]
    | succ n =>
      simp only [List.getD_cons_succ] at hc
      have := ih n hc
      simp only [List.set, List.count_cons]
      omega

theorem count_false_set : ∀ (l : List Bool) (c : ℕ), l.getD c false = true →
    (l.set c false).count false = l.count false + 1 := by
  intro l
  induction l with
  | nil => intro c hc; simp [List.getD] at hc
  | cons b t ih =>
    intro c hc
    cases c with
    | zero =>
      simp only [List.getD_cons_zero] at hc
      subst hc
      simp [List.set, List.count_cons]
    | succ n =>
      simp only [List.getD_cons_succ] at hc
      have := ih n hc
      simp only [List.set, List.count_cons]
      omega

/-- Killing an alive brick decreases the alive count by exactly one. -/
theorem aliveCount_setDead : ∀ (bricks : List (List Bool)) (r c : ℕ),
    getBrick bricks r c = true →
    aliveCount (setDead bricks r c) + 1 = aliveCount bricks := by
  intro bricks
  induction bricks with
  | nil => intro r c h; simp [getBrick, List.getD] at h
  | cons row rest ih =>
    intro r c h
    cases r with
    | zero =>
      unfold getBrick at h
      simp only [List.getD_cons_zero] at h
      unfold setDead aliveCount
      simp only [List.getD_cons_zero, List.set, List.map_cons, List.sum_cons]
      have := count_set_false row c h
      omega
    | succ n =>
      unfold getBrick at h
      simp only [List.getD_cons_succ] at h
      unfold setDead aliveCount
      simp only [List.getD_cons_succ, List.set, List.map_cons, List.sum_cons]
      have := ih n c h
      unfold setDead aliveCount at this
      omega

/-- Killing an alive brick increases the dead count by exactly one. -/
theorem deadCount_setDead : ∀ (bricks : List (List Bool)) (r c : ℕ),
    getBrick bricks r c = true →
    deadCount (setDead bricks r c) = deadCount bricks + 1 := by
  intro bricks
  induction bricks with
  | nil => intro r c h; simp [getBrick, List.getD] at h
  | cons row rest ih =>
    intro r c h
    cases r with
    | zero =>
      unfold getBrick at h
      simp only [List.getD_cons_zero] at h
      unfold setDead deadCount
      simp only [List.getD_cons_zero, List.set, List.map_cons, List.sum_cons]
      have := count_false_set row c h
      omega
    | succ n =>
      unfold getBrick at h
      simp only [List.getD_cons_succ] at h
      unfold setDead deadCount
      simp only [List.getD_cons_succ, List.set, List.map_cons, List.sum_cons]
      have := ih n c h
      unfold setDead deadCount at this
      omega

/-- A ball whose top is at or below 243 cannot intersect any brick of the
grid: the lowest brick bottom is at 242. -/
theorem firstHit_none_of_low (bricks : List (List Bool)) (ball : Rect)
    (h : 243 ≤ ball.y) : firstHit bricks ball = none := by
  unfold firstHit
  rw [List.find?_eq_none]
  intro rc hrc
  obtain ⟨r, c⟩ := rc
  have hr : r < BRICK_ROWS := (mem_rowMajor.mp hrc).1
  simp only [Bool.and_eq_true, decide_eq_true_eq, colliderect, not_and]
  intro _
  simp only [brick_rect, BRICK_TOP, BRICK_H, BRICK_GAP, BRICK_LEFT, BRICK_W]
  unfold BRICK_ROWS at hr
  omega

/-- The state the brick scan sees: after integration, walls, bottom and
paddle phases. -/
def preBrick (lv pb : ℚ × ℚ) (s : GState) : GState :=
  paddlePhase pb (bottomPhase lv (wallsPhase (movePhase s)))

theorem preBrick_bricks (lv pb : ℚ × ℚ) (s : GState) :
    (preBrick lv pb s).bricks = s.bricks := by
  unfold preBrick paddlePhase bottomPhase wallsPhase movePhase
  dsimp only
  split_ifs <;> rfl

theorem preBrick_score (lv pb : ℚ × ℚ) (s : GState) :
    (preBrick lv pb s).score = s.score := by
  unfold preBrick paddlePhase bottomPhase wallsPhase movePhase
  dsimp only
  split_ifs <;> rfl

theorem stepBody_eq_brickPhase_preBrick (lv pb : ℚ × ℚ) (s : GState) :
    stepBody lv pb s = brickPhase (preBrick lv pb s) :=
  stepBody_eq_phases lv pb s

theorem brickPhase_of_none {s : GState} (h : firstHit s.bricks s.ball = none) :
    brickPhase s = s := by
  unfold brickPhase
  rw [h]

theorem brickPhase_of_some {s : GState} {rc : ℕ × ℕ}
    (h : firstHit s.bricks s.ball = some rc) :
    brickPhase s =
      (if all_bricks_cleared (setDead s.bricks rc.1 rc.2) = true then
        { s with ball := (reflect_from_brick s.ball (brick_rect rc.1 rc.2) s.vel).1,
                 vel := (reflect_from_brick s.ball (brick_rect rc.1 rc.2) s.vel).2,
                 bricks := setDead s.bricks rc.1 rc.2,
                 score := s.score + 10, game_over := true, is_win := true }
      else
        { s with ball := (reflect_from_brick s.ball (brick_rect rc.1 rc.2) s.vel).1,
                 vel := (reflect_from_brick s.ball (brick_rect rc.1 rc.2) s.vel).2,
                 bricks := setDead s.bricks rc.1 rc.2,
                 score := s.score + 10 }) := by
  unfold brickPhase
  rw [h]

set_option maxHeartbeats 800000 in
/-- C2: in every fixed step at most one brick is resolved.  When the
row-major scan finds no alive intersecting brick, grid and score are
untouched; when it finds one at (r, c), that cell is alive and
intersects the ball, every cell preceding it in row-major order is dead
or misses the ball, exactly that cell is set dead, the score increases
by exactly 10, and the alive count drops by exactly one even if several
alive bricks overlap the ball box. -/
theorem c2_at_most_one_brick_per_step (lv pb : ℚ × ℚ) (s : GState) :
    (firstHit s.bricks (preBrick lv pb s).ball = none →
      (stepBody lv pb s).bricks = s.bricks ∧ (stepBody lv pb s).score = s.score) ∧
    (∀ r c, firstHit s.bricks (preBrick lv pb s).ball = some (r, c) →
      getBrick s.bricks r c = true ∧
      colliderect (preBrick lv pb s).ball (brick_rect r c) = true ∧
      (∀ i j, before (i, j) (r, c) → i < BRICK_ROWS → j < BRICK_COLS →
        getBrick s.bricks i j = true →
        colliderect (preBrick lv pb s).ball (brick_rect i j) = false) ∧
      (stepBody lv pb s).bricks = setDead s.bricks r c ∧
      (stepBody lv pb s).score = s.score + 10 ∧
      aliveCount (stepBody lv pb s).bricks + 1 = aliveCount s.bricks) := by
  have hb := preBrick_bricks lv pb s
  have hsc := preBrick_score lv pb s
  have hstep := stepBody_eq_brickPhase_preBrick lv pb s
  constructor
  · intro hnone
    rw [hstep, brickPhase_of_none (by rw [hb]; exact hnone)]
    exact ⟨hb, hsc⟩
  · intro r c hsome
    have hsome2 : firstHit (preBrick lv pb s).bricks (preBrick lv pb s).ball = some (r, c) := by
      rw [hb]; exact hsome
    have hp := List.find?_some hsome2
    rw [Bool.and_eq_true] at hp
    have hg : getBrick s.bricks r c = true := by rw [← hb]; exact hp.1
    have hcol2 : colliderect (preBrick lv pb s).ball (brick_rect r c) = true := hp.2
    have hbricks2 : (stepBody lv pb s).bricks = setDead s.bricks r c := by
      rw [hstep, brickPhase_of_some hsome2]
      split_ifs <;> (dsimp only; rw [hb])
    refine ⟨hg, hcol2, ?_, hbricks2, ?_, ?_⟩
    · intro i j hbef hi hj hgij
      have hfalse := find?_before_first rowMajor_pairwise hsome2 (i, j)
        (mem_rowMajor.mpr ⟨hi, hj⟩) hbef
      rw [Bool.and_eq_false_iff] at hfalse
      rcases hfalse with hfa | hfa
      · rw [hb] at hfa; rw [hgij] at hfa; simp at hfa
      · exact hfa
    · rw [hstep, brickPhase_of_some hsome2]
      split_ifs <;> (dsimp only; rw [hsc])
    · rw [hbricks2]
      exact aliveCount_setDead s.bricks r c hg

/-- A state whose ball box overlaps two alive adjacent bricks at once:
bricks (0,0) spans x 65..134 and (0,1) spans x 141..210, and the ball
spans x 132..141, y 85..94. -/
def twoBrickState : GState :=
  { bricks := reset_bricks, paddle := reset_paddle
    ball := { x := 132, y := 85, w := 10, h := 10 }, vel := (0, 0)
    lives := 3, score := 0, paused := false, game_over := false, is_win := false }

set_option maxHeartbeats 1000000 in
/-- Witness for C2: with the ball overlapping both brick (0,0) and brick
(0,1), exactly brick (0,0) is resolved and (0,1) stays alive. -/
theorem c2_at_most_one_brick_per_step_witness :
    firstHit twoBrickState.bricks (preBrick (0, 0) (0, 0) twoBrickState).ball = some (0, 0) ∧
    colliderect (preBrick (0, 0) (0, 0) twoBrickState).ball (brick_rect 0 0) = true ∧
    colliderect (preBrick (0, 0) (0, 0) twoBrickState).ball (brick_rect 0 1) = true ∧
    getBrick twoBrickState.bricks 0 1 = true ∧
    getBrick (stepBody (0, 0) (0, 0) twoBrickState).bricks 0 1 = true ∧
    (stepBody (0, 0) (0, 0) twoBrickState).bricks = setDead twoBrickState.bricks 0 0 ∧
    aliveCount (stepBody (0, 0) (0, 0) twoBrickState).bricks + 1 =
      aliveCount twoBrickState.bricks := by
  have h := (c2_at_most_one_brick_per_step (0, 0) (0, 0) twoBrickState).2 0 0 (by decide)
  exact ⟨by decide, h.2.1, by decide, by decide, by decide, h.2.2.2.1, h.2.2.2.2.2⟩

theorem paddlePhase_no_hit {pb : ℚ × ℚ} {u : GState}
    (h : colliderect u.ball u.paddle = false) : paddlePhase pb u = u := by
  unfold paddlePhase
  rw [if_neg]
  simp [h]

theorem colliderect_false_of_below (a b : Rect) (h : b.y + b.h ≤ a.y) :
    colliderect a b = false := by
  simp only [colliderect, Bool.and_eq_false_iff, decide_eq_false_iff_not, not_lt]
  right
  omega

theorem bottomPhase_loss_lost {lv : ℚ × ℚ} {u : GState}
    (hy : u.ball.y > WIN_H) (hl : u.lives - 1 ≤ 0) :
    bottomPhase lv u = { u with lives := u.lives - 1, game_over := true, is_win := false } := by
  unfold bottomPhase
  rw [if_pos hy, if_pos hl]

theorem bottomPhase_loss_respawn {lv : ℚ × ℚ} {u : GState}
    (hy : u.ball.y > WIN_H) (hl : ¬(u.lives - 1 ≤ 0)) :
    bottomPhase lv u =
      { u with lives := u.lives - 1, paddle := reset_paddle, ball := reset_ball, vel := lv } := by
  unfold bottomPhase
  rw [if_pos hy, if_neg hl]

theorem paddlePhase_id_at_respawn {pb : ℚ × ℚ} (u : GState)
    (hb : u.ball = reset_ball) (hp : u.paddle = reset_paddle) : paddlePhase pb u = u :=
  paddlePhase_no_hit (by rw [hb, hp]; decide)

theorem brickPhase_id_at_respawn (u : GState) (hb : u.ball = reset_ball) :
    brickPhase u = u :=
  brickPhase_of_none (by rw [hb]; exact firstHit_none_of_low _ _ (by decide))

/-- In a step whose bottom check fires (the integrated, wall-resolved
ball top is below the window), with the paddle at its fixed height and
vertical position: the grid and score are untouched, lives drop by one,
and the step ends lost or respawned depending on the remaining lives. -/
theorem lifeLoss_step (lv pb : ℚ × ℚ) (s : GState)
    (hpy : s.paddle.y = PADDLE_Y) (hph : s.paddle.h = PADDLE_H)
    (hloss : (wallsPhase (movePhase s)).ball.y > WIN_H) :
    (stepBody lv pb s).bricks = s.bricks ∧
    (stepBody lv pb s).score = s.score ∧
    (stepBody lv pb s).lives = s.lives - 1 ∧
    (s.lives - 1 ≤ 0 →
      (stepBody lv pb s).game_over = true ∧ (stepBody lv pb s).is_win = false) ∧
    (0 < s.lives - 1 →
      (stepBody lv pb s).game_over = s.game_over ∧
      (stepBody lv pb s).is_win = s.is_win ∧
      (stepBody lv pb s).ball = reset_ball ∧
      (stepBody lv pb s).paddle = reset_paddle ∧
      (stepBody lv pb s).vel = lv) := by
  rw [stepBody_eq_phases lv pb s]
  have hpad : (wallsPhase (movePhase s)).paddle = s.paddle := rfl
  have hlives : (wallsPhase (movePhase s)).lives = s.lives := rfl
  by_cases hl : (wallsPhase (movePhase s)).lives - 1 ≤ 0
  · rw [bottomPhase_loss_lost hloss hl]
    rw [paddlePhase_no_hit (colliderect_false_of_below _ _ (by
      dsimp only
      rw [hpad] at *
      unfold PADDLE_Y at hpy
      unfold PADDLE_H at hph
      unfold WIN_H at hloss
      omega))]
    rw [brickPhase_of_none (firstHit_none_of_low _ _ (by
      dsimp only
      unfold WIN_H at hloss
      omega))]
    rw [hlives] at hl
    exact ⟨rfl, rfl, rfl, fun _ => ⟨rfl, rfl⟩, fun hcon => absurd hl (by omega)⟩
  · rw [bottomPhase_loss_respawn hloss hl]
    rw [paddlePhase_id_at_respawn _ rfl rfl]
    rw [brickPhase_id_at_respawn _ rfl]
    exact ⟨rfl, rfl, rfl, fun hcon => absurd hcon (by rw [hlives] at hl; omega),
      fun _ => ⟨rfl, rfl, rfl, rfl, rfl⟩⟩

/-- C3: the step body is the fixed sequence integration, walls, bottom
boundary, paddle, bricks; and in a step in which the life-loss check
fires, no brick dies and no score is awarded later in that same step
(the paddle occupies its fixed layout row, as the game maintains). -/
theorem c3_phase_order_and_life_loss (lv pb : ℚ × ℚ) (s : GState)
    (hpy : s.paddle.y = PADDLE_Y) (hph : s.paddle.h = PADDLE_H) :
    stepBody lv pb s =
      brickPhase (paddlePhase pb (bottomPhase lv (wallsPhase (movePhase s)))) ∧
    ((wallsPhase (movePhase s)).ball.y > WIN_H →
      (stepBody lv pb s).bricks = s.bricks ∧ (stepBody lv pb s).score = s.score) :=
  ⟨stepBody_eq_phases lv pb s,
   fun h => ⟨(lifeLoss_step lv pb s hpy hph h).1, (lifeLoss_step lv pb s hpy hph h).2.1⟩⟩

/-- A state about to lose a life: the ball top is already below the
window, with three lives, a partial score and all bricks alive. -/
def lifeLossState : GState :=
  { bricks := reset_bricks, paddle := reset_paddle
    ball := { x := 100, y := 610, w := 10, h := 10 }, vel := (0, 0)
    lives := 3, score := 40, paused := false, game_over := false, is_win := false }

/-- Witness for C3 at the concrete life-loss state. -/
theorem c3_phase_order_and_life_loss_witness :
    lifeLossState.paddle.y = PADDLE_Y ∧ lifeLossState.paddle.h = PADDLE_H ∧
    (wallsPhase (movePhase lifeLossState)).ball.y > WIN_H ∧
    (stepBody (1, -2) (0, 0) lifeLossState).bricks = lifeLossState.bricks ∧
    (stepBody (1, -2) (0, 0) lifeLossState).score = lifeLossState.score := by
  have h := (c3_phase_order_and_life_loss (1, -2) (0, 0) lifeLossState
    (by decide) (by decide)).2 (by decide)
  exact ⟨by decide, by decide, by decide, h.1, h.2⟩

/-- C9: a life-loss event decrements lives by exactly one and leaves the
brick grid and score untouched; the step ends in the lost state exactly
when lives reached zero (given at least one life and a running game),
and otherwise respawns ball and paddle at the round-start layout with
the freshly drawn launch velocity. -/
theorem c9_life_loss_event (lv pb : ℚ × ℚ) (s : GState)
    (hpy : s.paddle.y = PADDLE_Y) (hph : s.paddle.h = PADDLE_H)
    (hl1 : 1 ≤ s.lives) (hgo : s.game_over = false)
    (hloss : (wallsPhase (movePhase s)).ball.y > WIN_H) :
    (stepBody lv pb s).lives = s.lives - 1 ∧
    (stepBody lv pb s).bricks = s.bricks ∧
    (stepBody lv pb s).score = s.score ∧
    ((stepBody lv pb s).game_over = true ∧ (stepBody lv pb s).is_win = false ↔ s.lives = 1) ∧
    (2 ≤ s.lives →
      (stepBody lv pb s).game_over = false ∧
      (stepBody lv pb s).ball = reset_ball ∧
      (stepBody lv pb s).paddle = reset_paddle ∧
      (stepBody lv pb s).vel = lv) := by
  have h := lifeLoss_step lv pb s hpy hph hloss
  refine ⟨h.2.2.1, h.1, h.2.1, ?_, ?_⟩
  · constructor
    · intro hw
      by_cases h2 : 0 < s.lives - 1
      · have := (h.2.2.2.2 h2).1
        rw [hw.1] at this
        rw [hgo] at this
        simp at this
      · omega
    · intro h1
      exact (h.2.2.2.1 (by omega))
  · intro h2
    have h5 := h.2.2.2.2 (by omega)
    exact ⟨by rw [h5.1, hgo], h5.2.2.1, h5.2.2.2.1, h5.2.2.2.2⟩

/-- Witness for C9: with three lives, the life-loss step keeps bricks
and score, sets lives to 2, stays running, and respawns ball and paddle
with the launch velocity. -/
theorem c9_life_loss_event_witness :
    lifeLossState.paddle.y = PADDLE_Y ∧ lifeLossState.paddle.h = PADDLE_H ∧
    (1 ≤ lifeLossState.lives) ∧ lifeLossState.game_over = false ∧
    (wallsPhase (movePhase lifeLossState)).ball.y > WIN_H ∧
    (stepBody (1, -2) (0, 0) lifeLossState).lives = 2 ∧
    (stepBody (1, -2) (0, 0) lifeLossState).bricks = lifeLossState.bricks ∧
    (stepBody (1, -2) (0, 0) lifeLossState).score = 40 ∧
    (stepBody (1, -2) (0, 0) lifeLossState).game_over = false ∧
    (stepBody (1, -2) (0, 0) lifeLossState).ball = reset_ball ∧
    (stepBody (1, -2) (0, 0) lifeLossState).paddle = reset_paddle ∧
    (stepBody (1, -2) (0, 0) lifeLossState).vel = (1, -2) := by
  have h := c9_life_loss_event (1, -2) (0, 0) lifeLossState
    (by decide) (by decide) (by decide) (by decide) (by decide)
  have h5 := h.2.2.2.2 (by decide)
  exact ⟨by decide, by decide, by decide, by decide, by decide,
    by rw [h.1]; decide, h.2.1, by rw [h.2.2.1]; decide,
    h5.1, h5.2.1, h5.2.2.1, h5.2.2.2⟩

theorem preBrick_is_win_false (lv pb : ℚ × ℚ) (s : GState) (hw : s.is_win = false) :
    (preBrick lv pb s).is_win = false := by
  unfold preBrick paddlePhase bottomPhase wallsPhase movePhase
  dsimp only
  split_ifs <;> first | rfl | exact hw

/-- C8: starting from a state not already won, the step reaches the won
state (game_over with is_win) only with the whole grid dead, and the
step that clears the last alive brick does set the won state. -/
theorem c8_won_iff_cleared (lv pb : ℚ × ℚ) (s : GState) (hw : s.is_win = false) :
    ((stepBody lv pb s).is_win = true →
      all_bricks_cleared (stepBody lv pb s).bricks = true ∧
      (stepBody lv pb s).game_over = true) ∧
    (all_bricks_cleared (stepBody lv pb s).bricks = true →
      all_bricks_cleared s.bricks = false →
      (stepBody lv pb s).is_win = true ∧ (stepBody lv pb s).game_over = true) := by
  have hpre := preBrick_is_win_false lv pb s hw
  have hb := preBrick_bricks lv pb s
  rw [stepBody_eq_brickPhase_preBrick]
  cases hfh : firstHit (preBrick lv pb s).bricks (preBrick lv pb s).ball with
  | none =>
    rw [brickPhase_of_none hfh]
    constructor
    · intro hwin
      rw [hpre] at hwin
      simp at hwin
    · intro hc hnc
      rw [hb] at hc
      rw [hc] at hnc
      simp at hnc
  | some rc =>
    rw [brickPhase_of_some hfh]
    by_cases hcl : all_bricks_cleared (setDead (preBrick lv pb s).bricks rc.1 rc.2) = true
    · rw [if_pos hcl]
      exact ⟨fun _ => ⟨hcl, rfl⟩, fun _ _ => ⟨rfl, rfl⟩⟩
    · rw [if_neg hcl]
      constructor
      · intro hwin
        dsimp only at hwin
        rw [hpre] at hwin
        simp at hwin
      · intro hc _
        dsimp only at hc
        exact absurd hc hcl

/-- A state with a single alive brick left, the ball overlapping it. -/
def oneBrickState : GState :=
  { bricks := (true :: List.replicate 9 false) :: List.replicate 5 (List.replicate 10 false)
    paddle := reset_paddle, ball := { x := 70, y := 85, w := 10, h := 10 }, vel := (0, 0)
    lives := 3, score := 590, paused := false, game_over := false, is_win := false }

/-- Witness for C8: the hit on the last alive brick sets the won state. -/
theorem c8_won_iff_cleared_witness :
    oneBrickState.is_win = false ∧
    all_bricks_cleared oneBrickState.bricks = false ∧
    all_bricks_cleared (stepBody (0, 0) (0, 0) oneBrickState).bricks = true ∧
    (stepBody (0, 0) (0, 0) oneBrickState).is_win = true ∧
    (stepBody (0, 0) (0, 0) oneBrickState).game_over = true := by
  have h := (c8_won_iff_cleared (0, 0) (0, 0) oneBrickState (by decide)).2
    (by decide) (by decide)
  exact ⟨by decide, by decide, by decide, h.1, h.2⟩

/-- C10: a fresh reset has score 0 with an all-alive grid, and every
tick preserves the invariant score = 10 times the number of dead
bricks, since the only score change is the +10 paid exactly when one
brick is set dead. -/
theorem c10_score_tracks_dead_bricks :
    (∀ lv : ℚ × ℚ, (reset lv).score = 0 ∧ deadCount (reset lv).bricks = 0 ∧
      (reset lv).score = 10 * (deadCount (reset lv).bricks : ℤ)) ∧
    (∀ lv pb : ℚ × ℚ, ∀ s : GState, s.score = 10 * (deadCount s.bricks : ℤ) →
      (tick lv pb s).score = 10 * (deadCount (tick lv pb s).bricks : ℤ)) := by
  constructor
  · intro lv
    have h0 : deadCount reset_bricks = 0 := by decide
    exact ⟨rfl, h0, by simp [reset, h0]⟩
  · intro lv pb s hinv
    unfold tick
    split_ifs with hguard
    · exact hinv
    · rw [stepBody_eq_brickPhase_preBrick]
      have hb := preBrick_bricks lv pb s
      have hsc := preBrick_score lv pb s
      cases hfh : firstHit (preBrick lv pb s).bricks (preBrick lv pb s).ball with
      | none =>
        rw [brickPhase_of_none hfh, hb, hsc]
        exact hinv
      | some rc =>
        rw [brickPhase_of_some hfh]
        have hp := List.find?_some hfh
        rw [Bool.and_eq_true] at hp
        rw [hb] at hp
        have hdc := deadCount_setDead s.bricks rc.1 rc.2 hp.1
        split_ifs <;> dsimp only <;> rw [hsc, hb, hdc] <;> push_cast <;> omega

/-- Witness for C10: the invariant holds before and after a tick that
kills one brick. -/
theorem c10_score_tracks_dead_bricks_witness :
    twoBrickState.score = 10 * (deadCount twoBrickState.bricks : ℤ) ∧
    (tick (0, 0) (0, 0) twoBrickState).score =
      10 * (deadCount (tick (0, 0) (0, 0) twoBrickState).bricks : ℤ) ∧
    (tick (0, 0) (0, 0) twoBrickState).score = 10 :=
  ⟨by decide, c10_score_tracks_dead_bricks.2 (0, 0) (0, 0) twoBrickState (by decide), by decide⟩

/-- C7: the paddle collision fires only when the ball box intersects
the paddle box with the ball moving downward; on firing, the ball
bottom is placed exactly one unit above the paddle top, and the
float-computed bounce velocity (speed times sin of the hit angle,
negative speed times the absolute cosine) has exactly the incoming
speed and a strictly upward vertical component, for any hit position
the intersection geometry permits. -/
theorem c7_paddle_bounce (pb : ℚ × ℚ) (s : GState) :
    (¬(colliderect s.ball s.paddle = true ∧ 0 < s.vel.2) → paddlePhase pb s = s) ∧
    (colliderect s.ball s.paddle = true → 0 < s.vel.2 →
      (paddlePhase pb s).ball.y + (paddlePhase pb s).ball.h = s.paddle.y - 1) ∧
    (∀ vx vy sp θ hit : ℝ, 0 < vy →
      s.ball.w = BALL_SIZE → s.paddle.w = PADDLE_W →
      colliderect s.ball s.paddle = true →
      hit = ((s.ball.x + BALL_SIZE / 2 - s.paddle.x : ℤ) : ℝ) / 100 →
      θ = (hit - 1 / 2) * (Real.pi / 1.2) →
      sp = Real.sqrt (vx ^ 2 + vy ^ 2) →
      Real.sqrt ((sp * Real.sin θ) ^ 2 + (-|sp * Real.cos θ|) ^ 2) = sp ∧
      -|sp * Real.cos θ| < 0) := by
  refine ⟨?_, ?_, ?_⟩
  · intro h
    unfold paddlePhase
    rw [if_neg h]
  · intro h1 h2
    unfold paddlePhase
    rw [if_pos ⟨h1, h2⟩]
    dsimp only
    omega
  · intro vx vy sp θ hit hvy hbw hpw hcol hhit hθ hsp
    have hpi := Real.pi_pos
    have hx : s.paddle.x - 9 ≤ s.ball.x ∧ s.ball.x ≤ s.paddle.x + 99 := by
      simp only [colliderect, Bool.and_eq_true, decide_eq_true_eq] at hcol
      unfold BALL_SIZE at hbw
      unfold PADDLE_W at hpw
      omega
    have hi : (-4 : ℤ) ≤ s.ball.x + BALL_SIZE / 2 - s.paddle.x ∧
        s.ball.x + BALL_SIZE / 2 - s.paddle.x ≤ 104 := by
      unfold BALL_SIZE
      omega
    have hcast : (-4 : ℝ) ≤ ((s.ball.x + BALL_SIZE / 2 - s.paddle.x : ℤ) : ℝ) ∧
        ((s.ball.x + BALL_SIZE / 2 - s.paddle.x : ℤ) : ℝ) ≤ 104 :=
      ⟨by exact_mod_cast hi.1, by exact_mod_cast hi.2⟩
    have hhb : |hit - 1 / 2| ≤ 27 / 50 := by
      rw [hhit, abs_le]
      constructor <;> [linarith [hcast.1]; linarith [hcast.2]]
    have h12 : (0 : ℝ) < Real.pi / 1.2 := by positivity
    have hθb : |θ| < Real.pi / 2 := by
      rw [hθ, abs_mul, abs_of_pos h12]
      have hc : |hit - 1 / 2| * (Real.pi / 1.2) ≤ 27 / 50 * (Real.pi / 1.2) :=
        mul_le_mul_of_nonneg_right hhb h12.le
      have he : (27 : ℝ) / 50 * (Real.pi / 1.2) = 9 / 20 * Real.pi := by
        norm_num
        ring
      nlinarith
    have hθlt := abs_lt.mp hθb
    have hcosθ : 0 < Real.cos θ := Real.cos_pos_of_mem_Ioo ⟨by linarith [hθlt.1], hθlt.2⟩
    have hsp0 : 0 < sp := by
      rw [hsp]
      apply Real.sqrt_pos.mpr
      nlinarith [sq_nonneg vx]
    constructor
    · have hsum : (sp * Real.sin θ) ^ 2 + (-|sp * Real.cos θ|) ^ 2 = sp ^ 2 := by
        rw [neg_sq, sq_abs]
        linear_combination sp ^ 2 * (Real.sin_sq_add_cos_sq θ)
      rw [hsum]
      exact Real.sqrt_sq hsp0.le
    · have habs : 0 < |sp * Real.cos θ| := abs_pos.mpr (ne_of_gt (mul_pos hsp0 hcosθ))
      linarith

/-- A state in which the ball overlaps the paddle while falling. -/
def paddleHitState : GState :=
  { bricks := reset_bricks, paddle := reset_paddle
    ball := { x := 350, y := 555, w := 10, h := 10 }, vel := (0, 5)
    lives := 3, score := 0, paused := false, game_over := false, is_win := false }

/-- Witness for C7 at a concrete paddle hit with incoming velocity
(0, 320). -/
theorem c7_paddle_bounce_witness :
    colliderect paddleHitState.ball paddleHitState.paddle = true ∧
    0 < paddleHitState.vel.2 ∧
    (paddlePhase (0, 0) paddleHitState).ball.y + (paddlePhase (0, 0) paddleHitState).ball.h =
      paddleHitState.paddle.y - 1 ∧
    Real.sqrt ((Real.sqrt ((0 : ℝ) ^ 2 + 320 ^ 2) *
        Real.sin ((((paddleHitState.ball.x + BALL_SIZE / 2 - paddleHitState.paddle.x : ℤ) : ℝ) /
          100 - 1 / 2) * (Real.pi / 1.2))) ^ 2 +
      (-|Real.sqrt ((0 : ℝ) ^ 2 + 320 ^ 2) *
        Real.cos ((((paddleHitState.ball.x + BALL_SIZE / 2 - paddleHitState.paddle.x : ℤ) : ℝ) /
          100 - 1 / 2) * (Real.pi / 1.2))|) ^ 2) =
      Real.sqrt ((0 : ℝ) ^ 2 + 320 ^ 2) ∧
    -|Real.sqrt ((0 : ℝ) ^ 2 + 320 ^ 2) *
        Real.cos ((((paddleHitState.ball.x + BALL_SIZE / 2 - paddleHitState.paddle.x : ℤ) : ℝ) /
          100 - 1 / 2) * (Real.pi / 1.2))| < 0 := by
  have h := c7_paddle_bounce (0, 0) paddleHitState
  have h3 := h.2.2 0 320 (Real.sqrt ((0 : ℝ) ^ 2 + 320 ^ 2)) _ _ (by norm_num)
    (by decide) (by decide) (by decide) rfl rfl rfl
  exact ⟨by decide, by decide, h.2.1 (by decide) (by decide), h3.1, h3.2⟩

open MeasureTheory

/-- The elevation of the launch direction off horizontal: for the angle
ang = pi/4 + r pi/2 of reset_ball_paddle (line 87), the angle between
the launch direction and the horizontal axis is min ang (pi - ang),
which folds to a tent map of r. -/
theorem launch_min_eq (r : ℝ) :
    min (Real.pi / 4 + r * (Real.pi / 2)) (Real.pi - (Real.pi / 4 + r * (Real.pi / 2))) =
      Real.pi / 2 - |r - 1 / 2| * (Real.pi / 2) := by
  have hpi := Real.pi_pos
  rcases le_total r (1 / 2) with h | h
  · rw [min_eq_left (by nlinarith), abs_of_nonpos (by linarith)]
    ring
  · rw [min_eq_right (by nlinarith), abs_of_nonneg (by linarith)]
    ring

/-- C5: launch randomization (reset_ball_paddle, lines 87-90, with
rng.random() modelled as r uniform on [0,1)).  Every launch has a
strictly upward vertical component and speed exactly BALL_SPEED, its
elevation off horizontal lies in [45, 90] degrees and determines the
component magnitudes, the pushforward of the uniform draw gives every
elevation subinterval [a, b] probability (b - a)/(pi/4) (the uniform
distribution on [pi/4, pi/2]), and the horizontal direction sign of
line 88 is -1 and +1 each with probability exactly 1/2. -/
theorem c5_launch_randomization :
    (∀ r d ang vx vy : ℝ, 0 ≤ r → r < 1 → (d = -1 ∨ d = 1) →
      ang = Real.pi / 4 + r * (Real.pi / 2) →
      vx = Real.cos ang * BALL_SPEED * d →
      vy = -|Real.sin ang * BALL_SPEED| →
      vy < 0 ∧
      Real.sqrt (vx ^ 2 + vy ^ 2) = BALL_SPEED ∧
      min ang (Real.pi - ang) ∈ Set.Icc (Real.pi / 4) (Real.pi / 2) ∧
      |vx| = BALL_SPEED * Real.cos (min ang (Real.pi - ang)) ∧
      |vy| = BALL_SPEED * Real.sin (min ang (Real.pi - ang))) ∧
    (∀ a b : ℝ, Real.pi / 4 ≤ a → a ≤ b → b ≤ Real.pi / 2 →
      volume {r ∈ Set.Ico (0 : ℝ) 1 |
          min (Real.pi / 4 + r * (Real.pi / 2)) (Real.pi - (Real.pi / 4 + r * (Real.pi / 2))) ∈
            Set.Icc a b} =
        ENNReal.ofReal ((b - a) * (4 / Real.pi))) ∧
    (volume {t ∈ Set.Ico (0 : ℝ) 1 | (if t < 1 / 2 then (-1 : ℝ) else 1) = -1} =
      ENNReal.ofReal (1 / 2)) ∧
    (volume {t ∈ Set.Ico (0 : ℝ) 1 | (if t < 1 / 2 then (-1 : ℝ) else 1) = 1} =
      ENNReal.ofReal (1 / 2)) := by
  have hpi := Real.pi_pos
  refine ⟨?_, ?_, ?_, ?_⟩
  · intro r d ang vx vy hr0 hr1 hd hang hvx hvy
    have hang1 : Real.pi / 4 ≤ ang := by rw [hang]; nlinarith
    have hang2 : ang < 3 * Real.pi / 4 := by rw [hang]; nlinarith
    have hsin : 0 < Real.sin ang :=
      Real.sin_pos_of_pos_of_lt_pi (by linarith) (by linarith)
    have hS : (0 : ℝ) < BALL_SPEED := by norm_num [BALL_SPEED]
    have hd2 : d ^ 2 = 1 := by rcases hd with h | h <;> rw [h] <;> norm_num
    have habsd : |d| = 1 := by rcases hd with h | h <;> rw [h] <;> norm_num
    refine ⟨?_, ?_, ?_, ?_, ?_⟩
    · rw [hvy]
      have h1 : 0 < |Real.sin ang * BALL_SPEED| :=
        abs_pos.mpr (ne_of_gt (mul_pos hsin hS))
      linarith
    · rw [hvx, hvy]
      have hsum : (Real.cos ang * BALL_SPEED * d) ^ 2 + (-|Real.sin ang * BALL_SPEED|) ^ 2 =
          BALL_SPEED ^ 2 := by
        rw [neg_sq, sq_abs]
        linear_combination (BALL_SPEED ^ 2 * Real.cos ang ^ 2) * hd2 +
          BALL_SPEED ^ 2 * (Real.sin_sq_add_cos_sq ang)
      rw [hsum]
      exact Real.sqrt_sq hS.le
    · constructor
      · exact le_min hang1 (by linarith)
      · rcases le_total ang (Real.pi / 2) with h | h
        · exact le_trans (min_le_left _ _) h
        · exact le_trans (min_le_right _ _) (by linarith)
    · rw [hvx, abs_mul, abs_mul, habsd, mul_one, abs_of_pos hS]
      rcases le_total ang (Real.pi / 2) with h | h
      · rw [min_eq_left (by linarith),
          abs_of_nonneg (Real.cos_nonneg_of_mem_Icc ⟨by linarith, h⟩)]
        ring
      · rw [min_eq_right (by linarith),
          abs_of_nonpos (Real.cos_nonpos_of_pi_div_two_le_of_le h (by linarith)),
          Real.cos_pi_sub]
        ring
    · rw [hvy, abs_neg, abs_abs, abs_mul, abs_of_pos hS, abs_of_pos hsin]
      rcases le_total ang (Real.pi / 2) with h | h
      · rw [min_eq_left (by linarith)]
        ring
      · rw [min_eq_right (by linarith), Real.sin_pi_sub]
        ring
  · intro a b ha hab hb
    have hpine : Real.pi ≠ 0 := ne_of_gt hpi
    have hhalf : (0 : ℝ) < Real.pi / 2 := by linarith
    obtain ⟨l, hl⟩ : ∃ l : ℝ, l = 1 - 2 * b / Real.pi := ⟨_, rfl⟩
    obtain ⟨u, hu⟩ : ∃ u : ℝ, u = 1 - 2 * a / Real.pi := ⟨_, rfl⟩
    have hueq : u * (Real.pi / 2) = Real.pi / 2 - a := by
      rw [hu]
      field_simp
    have hleq : l * (Real.pi / 2) = Real.pi / 2 - b := by
      rw [hl]
      field_simp
    have hl0 : 0 ≤ l := by
      rw [hl, sub_nonneg, div_le_one hpi]
      linarith
    have hu12 : u ≤ 1 / 2 := by
      have h4 : (1 : ℝ) / 2 ≤ 2 * a / Real.pi := by
        rw [le_div_iff hpi]
        linarith
      rw [hu]
      linarith
    have hlu : l ≤ u := by
      have h4 : 2 * a / Real.pi ≤ 2 * b / Real.pi :=
        (div_le_div_right hpi).mpr (by linarith)
      rw [hl, hu]
      linarith
    have hcond : ∀ r : ℝ, (a ≤ Real.pi / 2 - |r - 1 / 2| * (Real.pi / 2) ∧
        Real.pi / 2 - |r - 1 / 2| * (Real.pi / 2) ≤ b) ↔
        (l ≤ |r - 1 / 2| ∧ |r - 1 / 2| ≤ u) := by
      intro r
      constructor
      · rintro ⟨h1, h2⟩
        refine ⟨?_, ?_⟩
        · have h5 : l * (Real.pi / 2) ≤ |r - 1 / 2| * (Real.pi / 2) := by
            rw [hleq]
            linarith
          exact (mul_le_mul_right hhalf).mp h5
        · have h5 : |r - 1 / 2| * (Real.pi / 2) ≤ u * (Real.pi / 2) := by
            rw [hueq]
            linarith
          exact (mul_le_mul_right hhalf).mp h5
      · rintro ⟨h1, h2⟩
        have e1 := (mul_le_mul_right hhalf).mpr h1
        have e2 := (mul_le_mul_right hhalf).mpr h2
        rw [hleq] at e1
        rw [hueq] at e2
        constructor <;> linarith
    have hset : {r ∈ Set.Ico (0 : ℝ) 1 |
        min (Real.pi / 4 + r * (Real.pi / 2)) (Real.pi - (Real.pi / 4 + r * (Real.pi / 2))) ∈
          Set.Icc a b} =
        (Set.Icc (1 / 2 - u) (1 / 2 + u) \ Set.Ioo (1 / 2 - l) (1 / 2 + l)) \ {(1 : ℝ)} := by
      ext r
      simp only [Set.mem_sep_iff, Set.mem_setOf_eq, Set.mem_Ico, Set.mem_Icc, Set.mem_diff,
        Set.mem_Ioo, Set.mem_singleton_iff]
      rw [launch_min_eq r, hcond r]
      constructor
      · rintro ⟨⟨h0, h1⟩, hw1, hw2⟩
        have habs := abs_le.mp hw2
        refine ⟨⟨⟨by linarith [habs.1], by linarith [habs.2]⟩, ?_⟩, by linarith⟩
        rintro ⟨hio1, hio2⟩
        have h6 : |r - 1 / 2| < l := abs_lt.mpr ⟨by linarith, by linarith⟩
        linarith
      · rintro ⟨⟨⟨hic1, hic2⟩, hio⟩, hne⟩
        have hw2 : |r - 1 / 2| ≤ u := abs_le.mpr ⟨by linarith, by linarith⟩
        have hw1 : l ≤ |r - 1 / 2| := by
          by_contra hcon
          push_neg at hcon
          have h7 := abs_lt.mp hcon
          exact hio ⟨by linarith [h7.1], by linarith [h7.2]⟩
        refine ⟨⟨by linarith, ?_⟩, hw1, hw2⟩
        have h8 : r ≤ 1 := by linarith
        exact lt_of_le_of_ne h8 hne
    have hsub : Set.Ioo (1 / 2 - l) (1 / 2 + l) ⊆ Set.Icc (1 / 2 - u) (1 / 2 + u) := by
      intro x hx
      rw [Set.mem_Ioo] at hx
      rw [Set.mem_Icc]
      constructor <;> linarith [hx.1, hx.2]
    rw [hset]
    rw [measure_diff_null (measure_singleton 1)]
    rw [measure_diff hsub measurableSet_Ioo.nullMeasurableSet
      (by rw [Real.volume_Ioo]; exact ENNReal.ofReal_ne_top)]
    rw [Real.volume_Icc, Real.volume_Ioo]
    rw [← ENNReal.ofReal_sub _ (by linarith : (0 : ℝ) ≤ 1 / 2 + l - (1 / 2 - l))]
    congr 1
    rw [hl, hu]
    field_simp
    ring
  · have hs : {t ∈ Set.Ico (0 : ℝ) 1 | (if t < 1 / 2 then (-1 : ℝ) else 1) = -1} =
        Set.Ico (0 : ℝ) (1 / 2) := by
      ext t
      simp only [Set.mem_sep_iff, Set.mem_Ico]
      constructor
      · rintro ⟨⟨h0, h1⟩, hcond⟩
        split_ifs at hcond with h
        · exact ⟨h0, h⟩
        · norm_num at hcond
      · rintro ⟨h0, h2⟩
        exact ⟨⟨h0, by linarith⟩, if_pos h2⟩
    rw [hs, Real.volume_Ico]
    norm_num
  · have hs : {t ∈ Set.Ico (0 : ℝ) 1 | (if t < 1 / 2 then (-1 : ℝ) else 1) = 1} =
        Set.Ico (1 / 2) (1 : ℝ) := by
      ext t
      simp only [Set.mem_sep_iff, Set.mem_Ico]
      constructor
      · rintro ⟨⟨h0, h1⟩, hcond⟩
        split_ifs at hcond with h
        · norm_num at hcond
        · exact ⟨not_lt.mp h, h1⟩
      · rintro ⟨h2, h1⟩
        exact ⟨⟨by linarith, h1⟩, if_neg (not_lt.mpr h2)⟩
    rw [hs, Real.volume_Ico]
    norm_num

/-- Witness for C5: the launch at r = 0 with direction sign +1, and the
full elevation range carrying total probability 1. -/
theorem c5_launch_randomization_witness :
    ((0 : ℝ) ≤ 0 ∧ (0 : ℝ) < 1 ∧ ((1 : ℝ) = -1 ∨ (1 : ℝ) = 1)) ∧
    (-|Real.sin (Real.pi / 4 + 0 * (Real.pi / 2)) * BALL_SPEED| < 0 ∧
      Real.sqrt ((Real.cos (Real.pi / 4 + 0 * (Real.pi / 2)) * BALL_SPEED * 1) ^ 2 +
        (-|Real.sin (Real.pi / 4 + 0 * (Real.pi / 2)) * BALL_SPEED|) ^ 2) = BALL_SPEED) ∧
    MeasureTheory.volume {r ∈ Set.Ico (0 : ℝ) 1 |
        min (Real.pi / 4 + r * (Real.pi / 2)) (Real.pi - (Real.pi / 4 + r * (Real.pi / 2))) ∈
          Set.Icc (Real.pi / 4) (Real.pi / 2)} =
      ENNReal.ofReal ((Real.pi / 2 - Real.pi / 4) * (4 / Real.pi)) := by
  have h1 := c5_launch_randomization.1 0 1 (Real.pi / 4 + 0 * (Real.pi / 2)) _ _
    le_rfl (by norm_num) (Or.inr rfl) rfl rfl rfl
  have h2 := c5_launch_randomization.2.1 (Real.pi / 4) (Real.pi / 2)
    le_rfl (by linarith [Real.pi_pos]) le_rfl
  exact ⟨⟨le_rfl, by norm_num, Or.inr rfl⟩, ⟨h1.1, h1.2.1⟩, h2⟩

end MainProofs

end Breakout
